import Mathlib

/-!
Shallow embedding of the image-generation pipeline of the mythweaver
repository (src/api/controllers/sessions.ts): the retry orchestrator
entry point (the function named generateImage in the source), the
generation client (postToStableDiffusion), the blob-store URL
construction (saveImageLocally / uploadImage) and the observable
effects (artifact records, stored blobs, websocket notifications,
generation-client calls).

External collaborators (the HTTP client, the uuid generator, the
websocket sink, prisma) are modelled as oracles in an environment
record; every effect is logged in an explicit state.  Numbers that
the TypeScript code manipulates as plain JavaScript numbers (count,
tries, validImageCount) are modelled as Int so that subtractions such
as request.count - validImageCount keep their possibly-negative
meaning.
-/

namespace Mythweaver

/-- Finish reason of one artifact returned by the generation service
(sessions.ts line 417). -/
inductive FinishReason where
  | SUCCESS
  | CONTENT_FILTERED
  | ERROR
deriving DecidableEq, Repr

/-- One artifact of the generation response (sessions.ts lines 414-418). -/
structure SDArtifact where
  base64 : String
  seed : Int
  finishReason : FinishReason
deriving DecidableEq, Repr

/-- Optional linking of a generated image to session / conjuration /
character context (sessions.ts lines 428-432). -/
structure Linking where
  sessionId : Option Int
  conjurationId : Option Int
  characterId : Option Int
deriving DecidableEq, Repr

/-- The immutable input of the pipeline (sessions.ts lines 422-433).
JavaScript numbers are modelled as Int. -/
structure ImageRequest where
  userId : Int
  prompt : String
  count : Int
  negativePrompt : Option String
  stylePreset : Option String
  linking : Option Linking
deriving DecidableEq, Repr

/-- Result of one generation-client call (sessions.ts lines 413-420). -/
structure GenerationResponse where
  artifacts : List SDArtifact
  updatedPrompt : Option String
deriving DecidableEq, Repr

/-- The record persisted by prisma.image.create for one accepted image
(sessions.ts lines 488-497). -/
structure ImageRecord where
  userId : Int
  uri : String
  prompt : String
  negativePrompt : Option String
  stylePreset : String
  linking : Option Linking
deriving DecidableEq, Repr

/-- The five websocket event kinds the pipeline emits, with their
payloads (sessions.ts lines 461-519, 567-570). -/
inductive WSEvent where
  | imagePromptRephrased (prompt : String)
  | imageCreated (image : ImageRecord)
  | imageFiltered (message : String)
  | imageGenerationDone
  | imageError (message : String)
deriving DecidableEq, Repr

/-- A websocket notification: target user id paired with the event. -/
abbrev WSEntry := Int × WSEvent

/-- Environment of oracles for the external collaborators: the
configured credential, the HTTP text-to-image endpoint (indexed by
call number and by the samples parameter of the request body; none
models a thrown axios error), the uuid generator (indexed by how many
blobs were stored before), the deployment-mode flag and the API_URL
used for locally served images. -/
structure Env where
  apiKey : Option String
  http : Nat → Int → Option (List SDArtifact)
  uuid : Nat → String
  isLocalDevelopment : Bool
  apiUrl : String

/-- Observable state threaded through one generateImage invocation:
produced URIs in order, the validImageCount and tries counters, the
persisted artifact records in order, the emitted notifications in
order, the stored blobs (id, base64) in order, and the samples
argument of every generation-client call in order. -/
structure St where
  urls : List String
  validImageCount : Int
  tries : Int
  recorded : List ImageRecord
  events : List WSEntry
  stored : List (String × String)
  calls : List Int
deriving DecidableEq, Repr

/-- Initial state of a generateImage invocation (sessions.ts
lines 440-442). -/
def st0 : St :=
  { urls := [], validImageCount := 0, tries := 0, recorded := [],
    events := [], stored := [], calls := [] }

/-- Message of the imageError notification (sessions.ts lines 568-569). -/
def imageErrorMessage : String :=
  "There was an error generating your image. Your prompt was rejected by the content filtering system. Please try again."

/-- Message of the imageFiltered notification (sessions.ts
lines 511-512). -/
def imageFilteredMessage : String :=
  "The image generation service was unable to generate an image that met the criteria. Please try again."

/-- The maxImageTries constant (sessions.ts line 443). -/
def maxImageTries : Int := 30

/-- URL returned by saveImageLocally (sessions.ts lines 581-592); the
filesystem write is logged separately in St.stored. -/
def saveImageLocally (env : Env) (imageId : String) : String :=
  env.apiUrl ++ "/images/" ++ imageId ++ ".png"

/-- URL returned by uploadImage (sessions.ts lines 594-609); the bucket
write is logged separately in St.stored. -/
def uploadImage (imageId : String) : String :=
  "https://assets.mythweaver.co/" ++ imageId ++ ".png"

/-- Model of postToStableDiffusion (sessions.ts lines 525-579), for the
call numbered callIdx of the enclosing invocation.  Returns the
response (none when axios threw or when depth exceeds 5) together with
the notifications it emitted itself.  updatedPrompt is populated only
for depth different from 0 (line 577). -/
def postToStableDiffusion (env : Env) (callIdx : Nat) (request : ImageRequest)
    (preset : String) (promptHistory : List String) (depth : Nat) :
    Option GenerationResponse × List WSEntry :=
  if depth > 5 then (none, [])
  else
    match env.http callIdx request.count with
    | none => (none, [(request.userId, WSEvent.imageError imageErrorMessage)])
    | some arts =>
        (some { artifacts := arts,
                updatedPrompt := if depth = 0 then none else some request.prompt },
         [])

/-- Body of the for-loop over one already-filtered artifact
(sessions.ts lines 477-505): generate an id, store the blob, collect
the URI, persist the record, notify, increment validImageCount. -/
def processArtifact (env : Env) (request : ImageRequest) (preset : String)
    (a : SDArtifact) (st : St) : St :=
  let imageId := env.uuid st.stored.length
  let url := if env.isLocalDevelopment then saveImageLocally env imageId
             else uploadImage imageId
  let created : ImageRecord :=
    { userId := request.userId, uri := url, prompt := request.prompt,
      negativePrompt := request.negativePrompt, stylePreset := preset,
      linking := request.linking }
  { st with
    urls := st.urls ++ [url],
    stored := st.stored ++ [(imageId, a.base64)],
    recorded := st.recorded ++ [created],
    events := st.events ++ [(request.userId, WSEvent.imageCreated created)],
    validImageCount := st.validImageCount + 1 }

/-- The for-loop over the filtered artifacts (sessions.ts
lines 472-506), with its break once validImageCount equals
request.count (line 473: strict equality test, as in the source). -/
def processArtifacts (env : Env) (request : ImageRequest) (preset : String) :
    List SDArtifact → St → St
  | [], st => st
  | a :: rest, st =>
      if st.validImageCount = request.count then st
      else processArtifacts env request preset rest
        (processArtifact env request preset a st)

/-- Outcome of one do-while iteration: either the client signalled a
hard failure (generateImage returns undefined, sessions.ts
lines 456-458) or the iteration completed. -/
inductive BodyOut where
  | aborted (st : St)
  | completed (st : St)
deriving Repr

/-- The filter keeping only SUCCESS artifacts (sessions.ts
lines 468-470). -/
def filterSuccess (l : List SDArtifact) : List SDArtifact :=
  l.filter fun a => decide (a.finishReason = FinishReason.SUCCESS)

/-- One iteration of the do-while loop of generateImage (sessions.ts
lines 445-506): increment tries by the original request.count, call the
generation client for the remainder request.count - validImageCount
(spread of the request with the count replaced), abort on a missing
response, emit the prompt-rephrased notification when updatedPrompt is
truthy, then process the SUCCESS artifacts. -/
def loopBody (env : Env) (request : ImageRequest) (preset : String)
    (st : St) : BodyOut :=
  let st1 : St := { st with tries := st.tries + request.count }
  let rem : Int := request.count - st1.validImageCount
  let inner : ImageRequest := { request with count := rem }
  let callIdx : Nat := st1.calls.length
  let st2 : St := { st1 with calls := st1.calls ++ [rem] }
  match postToStableDiffusion env callIdx inner preset [] 0 with
  | (none, evs) => BodyOut.aborted { st2 with events := st2.events ++ evs }
  | (some resp, evs) =>
      let st3 : St := { st2 with events := st2.events ++ evs }
      let st4 : St :=
        match resp.updatedPrompt with
        | some up =>
            if up = "" then st3
            else { st3 with events :=
                     st3.events ++ [(request.userId, WSEvent.imagePromptRephrased up)] }
        | none => st3
      BodyOut.completed (processArtifacts env request preset (filterSuccess resp.artifacts) st4)

/-- Outcome of the whole do-while loop.  The spin constructor is the
fuel-exhaustion artifact of the embedding; genLoop_no_spin and
genLoop_no_spin_start prove it is never reached from the initial state
with the fuel generateImage uses. -/
inductive LoopOut where
  | aborted (st : St)
  | finished (st : St)
  | spin (st : St)
deriving Repr

/-- The do-while loop of generateImage (sessions.ts lines 445-507),
fuel-indexed: run the body, then continue while
validImageCount < request.count and tries < maxImageTries. -/
def genLoop (env : Env) (request : ImageRequest) (preset : String) :
    Nat → St → LoopOut
  | 0, st => LoopOut.spin st
  | Nat.succ fuel, st =>
      match loopBody env request preset st with
      | BodyOut.aborted st1 => LoopOut.aborted st1
      | BodyOut.completed st1 =>
          if st1.validImageCount < request.count ∧ st1.tries < maxImageTries then
            genLoop env request preset fuel st1
          else LoopOut.finished st1

/-- Fuel passed to genLoop by generateImage; genLoop_no_spin_start
shows it always suffices from the initial state. -/
def genFuel : Nat := 31

/-- Result of a generateImage invocation: a synchronously thrown
missing-credential error (sessions.ts line 436), or a returned value
(some urls, or none for the undefined return of line 457) together
with the final observable state. -/
inductive GenOutcome where
  | thrown
  | result (urls : Option (List String)) (st : St)
deriving DecidableEq, Repr

/-- Style preset used by generateImage (sessions.ts line 438): the ||
operator falls back to fantasy-art when the field is absent or the
empty string. -/
def presetOf (request : ImageRequest) : String :=
  match request.stylePreset with
  | none => "fantasy-art"
  | some s => if s = "" then "fantasy-art" else s

/-- Model of generateImage (sessions.ts lines 435-523).  The credential
test is JavaScript truthiness (an empty-string key also throws), the
style preset defaults to fantasy-art via the || operator, and after the
loop either the imageFiltered or the imageGenerationDone notification
is emitted before the urls are returned. -/
def generateImage (env : Env) (request : ImageRequest) : GenOutcome :=
  match env.apiKey with
  | none => GenOutcome.thrown
  | some key =>
      if key = "" then GenOutcome.thrown
      else
        match genLoop env request (presetOf request) genFuel st0 with
        | LoopOut.aborted st => GenOutcome.result none st
        | LoopOut.spin st => GenOutcome.result none st
        | LoopOut.finished st =>
            if st.validImageCount < request.count then
              GenOutcome.result (some st.urls)
                { st with events :=
                    st.events ++ [(request.userId, WSEvent.imageFiltered imageFilteredMessage)] }
            else
              GenOutcome.result (some st.urls)
                { st with events :=
                    st.events ++ [(request.userId, WSEvent.imageGenerationDone)] }

/-- Final observable state of an outcome; a thrown credential error
happens before any effect, so its state is the initial one. -/
def stateOf : GenOutcome → St
  | GenOutcome.thrown => st0
  | GenOutcome.result _ st => st

/-- State carried by a loop outcome. -/
def LoopOut.state : LoopOut → St
  | LoopOut.aborted st => st
  | LoopOut.finished st => st
  | LoopOut.spin st => st

/-- State carried by a body outcome. -/
def BodyOut.state : BodyOut → St
  | BodyOut.aborted st => st
  | BodyOut.completed st => st

/-- Classifier of prompt-rephrased notifications. -/
def isRephraseEntry (e : WSEntry) : Bool :=
  match e.2 with
  | WSEvent.imagePromptRephrased _ => true
  | _ => false

/-- Classifier of image-filtered notifications. -/
def isFilteredEntry (e : WSEntry) : Bool :=
  match e.2 with
  | WSEvent.imageFiltered _ => true
  | _ => false

/-- Classifier of generation-done notifications. -/
def isDoneEntry (e : WSEntry) : Bool :=
  match e.2 with
  | WSEvent.imageGenerationDone => true
  | _ => false

/-- Classifier of image-error notifications. -/
def isErrorEntry (e : WSEntry) : Bool :=
  match e.2 with
  | WSEvent.imageError _ => true
  | _ => false

/-- Predicate for an image-created notification addressed to the given
user. -/
def CreatedFor (uid : Int) (e : WSEntry) : Prop :=
  e.1 = uid ∧ ∃ img, e.2 = WSEvent.imageCreated img

theorem processArtifact_valid (env : Env) (req : ImageRequest) (preset : String)
    (a : SDArtifact) (st : St) :
    (processArtifact env req preset a st).validImageCount = st.validImageCount + 1 := rfl

theorem processArtifact_tries (env : Env) (req : ImageRequest) (preset : String)
    (a : SDArtifact) (st : St) :
    (processArtifact env req preset a st).tries = st.tries := rfl

theorem processArtifact_calls (env : Env) (req : ImageRequest) (preset : String)
    (a : SDArtifact) (st : St) :
    (processArtifact env req preset a st).calls = st.calls := rfl

theorem processArtifact_urls_length (env : Env) (req : ImageRequest) (preset : String)
    (a : SDArtifact) (st : St) :
    (processArtifact env req preset a st).urls.length = st.urls.length + 1 := by
  simp [processArtifact]

theorem processArtifact_recorded_length (env : Env) (req : ImageRequest) (preset : String)
    (a : SDArtifact) (st : St) :
    (processArtifact env req preset a st).recorded.length = st.recorded.length + 1 := by
  simp [processArtifact]

theorem processArtifact_stored_length (env : Env) (req : ImageRequest) (preset : String)
    (a : SDArtifact) (st : St) :
    (processArtifact env req preset a st).stored.length = st.stored.length + 1 := by
  simp [processArtifact]

theorem processArtifact_events (env : Env) (req : ImageRequest) (preset : String)
    (a : SDArtifact) (st : St) :
    ∃ img, (processArtifact env req preset a st).events
      = st.events ++ [(req.userId, WSEvent.imageCreated img)] :=
  ⟨_, rfl⟩

/-- Full processing of a batch that fits in the remaining room: every
artifact of the list is accepted, each growing the accumulators by one
and emitting one image-created notification. -/
theorem processArtifacts_full (env : Env) (req : ImageRequest) (preset : String) :
    ∀ (l : List SDArtifact) (st : St),
      st.validImageCount + (l.length : Int) ≤ req.count →
      (processArtifacts env req preset l st).validImageCount
          = st.validImageCount + l.length
      ∧ (processArtifacts env req preset l st).urls.length = st.urls.length + l.length
      ∧ (processArtifacts env req preset l st).recorded.length
          = st.recorded.length + l.length
      ∧ (processArtifacts env req preset l st).stored.length
          = st.stored.length + l.length
      ∧ (processArtifacts env req preset l st).tries = st.tries
      ∧ (processArtifacts env req preset l st).calls = st.calls
      ∧ ∃ evs, (processArtifacts env req preset l st).events = st.events ++ evs
          ∧ evs.length = l.length
          ∧ ∀ e ∈ evs, CreatedFor req.userId e := by
  intro l
  induction l with
  | nil =>
      intro st _h
      refine ⟨by simp [processArtifacts], by simp [processArtifacts],
        by simp [processArtifacts], by simp [processArtifacts],
        by simp [processArtifacts], by simp [processArtifacts],
        ⟨[], by simp [processArtifacts], by simp, by simp⟩⟩
  | cons a rest ih =>
      intro st h
      have hne : ¬ st.validImageCount = req.count := by
        simp only [List.length_cons] at h
        push_cast at h
        omega
      rw [processArtifacts, if_neg hne]
      have hfit : (processArtifact env req preset a st).validImageCount
          + (rest.length : Int) ≤ req.count := by
        rw [processArtifact_valid]
        simp only [List.length_cons] at h
        push_cast at h ⊢
        omega
      obtain ⟨hv, hu, hr, hs, ht, hc, evs, hev, hlen, hall⟩ := ih _ hfit
      obtain ⟨img, himg⟩ := processArtifact_events env req preset a st
      refine ⟨?_, ?_, ?_, ?_, ?_, ?_,
        ⟨(req.userId, WSEvent.imageCreated img) :: evs, ?_, ?_, ?_⟩⟩
      · rw [hv, processArtifact_valid]; simp; ring
      · rw [hu, processArtifact_urls_length]; simp; ring
      · rw [hr, processArtifact_recorded_length]; simp; ring
      · rw [hs, processArtifact_stored_length]; simp; ring
      · rw [ht, processArtifact_tries]
      · rw [hc, processArtifact_calls]
      · rw [hev, himg]; simp
      · simp [hlen]
      · intro e he
        rcases List.mem_cons.mp he with h1 | h2
        · exact h1 ▸ ⟨rfl, img, rfl⟩
        · exact hall e h2

/-- Invariant preservation by the artifact-processing loop, with no
assumption on how many artifacts the client returned: tries and calls
untouched, validImageCount monotone and capped at request.count by the
break, the accumulators kept in lockstep with validImageCount, and only
image-created notifications appended. -/
theorem processArtifacts_inv (env : Env) (req : ImageRequest) (preset : String) :
    ∀ (l : List SDArtifact) (st : St),
      (processArtifacts env req preset l st).tries = st.tries
      ∧ (processArtifacts env req preset l st).calls = st.calls
      ∧ st.validImageCount ≤ (processArtifacts env req preset l st).validImageCount
      ∧ (st.validImageCount ≤ req.count →
          (processArtifacts env req preset l st).validImageCount ≤ req.count)
      ∧ ((processArtifacts env req preset l st).recorded.length : Int)
          - (processArtifacts env req preset l st).validImageCount
          = (st.recorded.length : Int) - st.validImageCount
      ∧ ((processArtifacts env req preset l st).urls.length : Int)
          - (processArtifacts env req preset l st).validImageCount
          = (st.urls.length : Int) - st.validImageCount
      ∧ ((processArtifacts env req preset l st).stored.length : Int)
          - (processArtifacts env req preset l st).validImageCount
          = (st.stored.length : Int) - st.validImageCount
      ∧ ∃ evs, (processArtifacts env req preset l st).events = st.events ++ evs
          ∧ ∀ e ∈ evs, CreatedFor req.userId e := by
  intro l
  induction l with
  | nil =>
      intro st
      refine ⟨rfl, rfl, le_refl _, fun h => h, ?_, ?_, ?_,
        ⟨[], by simp [processArtifacts], by simp⟩⟩ <;> simp [processArtifacts]
  | cons a rest ih =>
      intro st
      by_cases heq : st.validImageCount = req.count
      · rw [processArtifacts, if_pos heq]
        exact ⟨rfl, rfl, le_refl _, fun h => h, rfl, rfl, rfl, ⟨[], by simp, by simp⟩⟩
      · rw [processArtifacts, if_neg heq]
        obtain ⟨ht, hc, hmono, hcap, hr, hu, hs, evs, hev, hall⟩ :=
          ih (processArtifact env req preset a st)
        obtain ⟨img, himg⟩ := processArtifact_events env req preset a st
        refine ⟨?_, ?_, ?_, ?_, ?_, ?_, ?_,
          ⟨(req.userId, WSEvent.imageCreated img) :: evs, ?_, ?_⟩⟩
        · rw [ht, processArtifact_tries]
        · rw [hc, processArtifact_calls]
        · calc st.validImageCount ≤ st.validImageCount + 1 := by omega
            _ = (processArtifact env req preset a st).validImageCount :=
              (processArtifact_valid env req preset a st).symm
            _ ≤ _ := hmono
        · intro h
          exact hcap (by rw [processArtifact_valid]; omega)
        · rw [hr, processArtifact_recorded_length, processArtifact_valid]
          push_cast
          ring
        · rw [hu, processArtifact_urls_length, processArtifact_valid]
          push_cast
          ring
        · rw [hs, processArtifact_stored_length, processArtifact_valid]
          push_cast
          ring
        · rw [hev, himg]; simp
        · intro e he
          rcases List.mem_cons.mp he with h1 | h2
          · exact h1 ▸ ⟨rfl, img, rfl⟩
          · exact hall e h2

/-- Value of one do-while iteration when the generation client throws:
tries incremented by the original count, the remainder logged as the
samples argument, the image-error notification appended, abort. -/
theorem loopBody_eq_none (env : Env) (req : ImageRequest) (preset : String) (st : St)
    (h : env.http st.calls.length (req.count - st.validImageCount) = none) :
    loopBody env req preset st = BodyOut.aborted
      { st with tries := st.tries + req.count,
                calls := st.calls ++ [req.count - st.validImageCount],
                events := st.events ++ [(req.userId, WSEvent.imageError imageErrorMessage)] } := by
  obtain ⟨u, v, t, r, e, s, c⟩ := st
  simp only [loopBody, postToStableDiffusion] at *
  simp [h]

/-- Value of one do-while iteration when the generation client returns
a batch: tries incremented by the original count, the remainder logged,
no prompt-rephrased notification (depth is 0), then the SUCCESS
artifacts are processed. -/
theorem loopBody_eq_some (env : Env) (req : ImageRequest) (preset : String) (st : St)
    (arts : List SDArtifact)
    (h : env.http st.calls.length (req.count - st.validImageCount) = some arts) :
    loopBody env req preset st = BodyOut.completed
      (processArtifacts env req preset (filterSuccess arts)
        { st with tries := st.tries + req.count,
                  calls := st.calls ++ [req.count - st.validImageCount] }) := by
  obtain ⟨u, v, t, r, e, s, c⟩ := st
  simp only [loopBody, postToStableDiffusion] at *
  simp [h]

/-- Whatever the client does, one iteration adds the originally
requested count to the tries counter. -/
theorem loopBody_tries (env : Env) (req : ImageRequest) (preset : String) (st : St) :
    (loopBody env req preset st).state.tries = st.tries + req.count := by
  cases h : env.http st.calls.length (req.count - st.validImageCount) with
  | none =>
      rw [loopBody_eq_none env req preset st h]
      rfl
  | some arts =>
      rw [loopBody_eq_some env req preset st arts h]
      have := (processArtifacts_inv env req preset (filterSuccess arts)
        { st with tries := st.tries + req.count,
                  calls := st.calls ++ [req.count - st.validImageCount] }).1
      simpa [BodyOut.state] using this

/-- Run invariant of the orchestrator: validImageCount stays between 0
and request.count, the accumulators stay in lockstep with it, and
every generation-client call requested a non-negative sample count. -/
def Inv (req : ImageRequest) (st : St) : Prop :=
  0 ≤ st.validImageCount ∧ st.validImageCount ≤ req.count
  ∧ (st.recorded.length : Int) = st.validImageCount
  ∧ (st.urls.length : Int) = st.validImageCount
  ∧ (st.stored.length : Int) = st.validImageCount
  ∧ ∀ c ∈ st.calls, 0 ≤ c

/-- One iteration preserves the run invariant. -/
theorem loopBody_inv (env : Env) (req : ImageRequest) (preset : String) (st : St)
    (h : Inv req st) : Inv req (loopBody env req preset st).state := by
  obtain ⟨h0, h1, hr, hu, hs, hcalls⟩ := h
  cases h : env.http st.calls.length (req.count - st.validImageCount) with
  | none =>
      rw [loopBody_eq_none env req preset st h]
      refine ⟨h0, h1, hr, hu, hs, ?_⟩
      intro c hc
      rcases List.mem_append.mp hc with hin | hin
      · exact hcalls c hin
      · simp at hin
        omega
  | some arts =>
      rw [loopBody_eq_some env req preset st arts h]
      simp only [BodyOut.state]
      obtain ⟨ht, hc, hmono, hcap, hrd, hud, hsd, evs, hev, hall⟩ :=
        processArtifacts_inv env req preset (filterSuccess arts)
          { st with tries := st.tries + req.count,
                    calls := st.calls ++ [req.count - st.validImageCount] }
      simp only [St.mk.injEq] at hc hmono hcap hrd hud hsd
      refine ⟨le_trans h0 hmono, hcap h1, by omega, by omega, by omega, ?_⟩
      · rw [hc]
        intro c hc2
        rcases List.mem_append.mp hc2 with hin | hin
        · exact hcalls c hin
        · simp at hin
          omega

/-- Unfolding of a loop step whose body aborted. -/
theorem genLoop_succ_aborted (env : Env) (req : ImageRequest) (preset : String)
    (f : Nat) (st st1 : St)
    (hb : loopBody env req preset st = BodyOut.aborted st1) :
    genLoop env req preset (f + 1) st = LoopOut.aborted st1 := by
  simp only [genLoop, hb]

/-- Unfolding of a loop step whose body completed: the loop continues
exactly when validImageCount is below request.count and tries is below
maxImageTries. -/
theorem genLoop_succ_completed (env : Env) (req : ImageRequest) (preset : String)
    (f : Nat) (st st1 : St)
    (hb : loopBody env req preset st = BodyOut.completed st1) :
    genLoop env req preset (f + 1) st
      = if st1.validImageCount < req.count ∧ st1.tries < maxImageTries
        then genLoop env req preset f st1
        else LoopOut.finished st1 := by
  simp only [genLoop, hb]

/-- The do-while loop preserves the run invariant, whatever the fuel
and the client behaviour. -/
theorem genLoop_inv (env : Env) (req : ImageRequest) (preset : String) :
    ∀ (fuel : Nat) (st : St), Inv req st →
      Inv req (genLoop env req preset fuel st).state := by
  intro fuel
  induction fuel with
  | zero =>
      intro st h
      exact h
  | succ f ih =>
      intro st h
      have h1 := loopBody_inv env req preset st h
      cases hb : loopBody env req preset st with
      | aborted st1 =>
          rw [hb] at h1
          rw [genLoop_succ_aborted env req preset f st st1 hb]
          exact h1
      | completed st1 =>
          rw [hb] at h1
          rw [genLoop_succ_completed env req preset f st st1 hb]
          by_cases hg : st1.validImageCount < req.count ∧ st1.tries < maxImageTries
          · rw [if_pos hg]
            exact ih st1 h1
          · rw [if_neg hg]
            exact h1

/-- Starting under the budget, the loop ends with a tries counter
strictly below maxImageTries plus one more batch of request.count. -/
theorem genLoop_tries (env : Env) (req : ImageRequest) (preset : String)
    (hc : 0 ≤ req.count) :
    ∀ (fuel : Nat) (st : St), st.tries < maxImageTries →
      (genLoop env req preset fuel st).state.tries < maxImageTries + req.count := by
  intro fuel
  induction fuel with
  | zero =>
      intro st h
      simp only [genLoop, LoopOut.state]
      omega
  | succ f ih =>
      intro st h
      have ht := loopBody_tries env req preset st
      cases hb : loopBody env req preset st with
      | aborted st1 =>
          rw [hb] at ht
          simp only [BodyOut.state] at ht
          rw [genLoop_succ_aborted env req preset f st st1 hb]
          simp only [LoopOut.state]
          omega
      | completed st1 =>
          rw [hb] at ht
          simp only [BodyOut.state] at ht
          rw [genLoop_succ_completed env req preset f st st1 hb]
          by_cases hg : st1.validImageCount < req.count ∧ st1.tries < maxImageTries
          · rw [if_pos hg]
            exact ih st1 hg.2
          · rw [if_neg hg]
            simp only [LoopOut.state]
            omega

/-- One iteration can only append image-error or image-created
notifications, so it preserves the absence of prompt-rephrased
notifications: postToStableDiffusion is always called at depth 0. -/
theorem loopBody_rephrase (env : Env) (req : ImageRequest) (preset : String) (st : St) :
    ((loopBody env req preset st).state.events).filter isRephraseEntry
      = st.events.filter isRephraseEntry := by
  cases h : env.http st.calls.length (req.count - st.validImageCount) with
  | none =>
      rw [loopBody_eq_none env req preset st h]
      simp [BodyOut.state, isRephraseEntry]
  | some arts =>
      rw [loopBody_eq_some env req preset st arts h]
      simp only [BodyOut.state]
      obtain ⟨_, _, _, _, _, _, _, evs, hev, hall⟩ :=
        processArtifacts_inv env req preset (filterSuccess arts)
          { st with tries := st.tries + req.count,
                    calls := st.calls ++ [req.count - st.validImageCount] }
      rw [hev]
      simp only [List.filter_append]
      have hnil : evs.filter isRephraseEntry = [] := by
        rw [List.filter_eq_nil_iff]
        intro e he
        obtain ⟨_, img, himg⟩ := hall e he
        simp [isRephraseEntry, himg]
      rw [hnil]
      simp

/-- The whole loop never emits a prompt-rephrased notification. -/
theorem genLoop_rephrase (env : Env) (req : ImageRequest) (preset : String) :
    ∀ (fuel : Nat) (st : St),
      ((genLoop env req preset fuel st).state.events).filter isRephraseEntry
        = st.events.filter isRephraseEntry := by
  intro fuel
  induction fuel with
  | zero =>
      intro st
      rfl
  | succ f ih =>
      intro st
      have hb1 := loopBody_rephrase env req preset st
      cases hb : loopBody env req preset st with
      | aborted st1 =>
          rw [hb] at hb1
          rw [genLoop_succ_aborted env req preset f st st1 hb]
          exact hb1
      | completed st1 =>
          rw [hb] at hb1
          simp only [BodyOut.state] at hb1
          rw [genLoop_succ_completed env req preset f st st1 hb]
          by_cases hg : st1.validImageCount < req.count ∧ st1.tries < maxImageTries
          · rw [if_pos hg]
            rw [ih st1, hb1]
          · rw [if_neg hg]
            exact hb1

/-- Unfolding of generateImage past a valid credential: the outcome is
the loop result followed by the post-loop notification choice. -/
theorem generateImage_eq (env : Env) (req : ImageRequest) (key : String)
    (hk : env.apiKey = some key) (hke : ¬ key = "") :
    generateImage env req
      = match genLoop env req (presetOf req) genFuel st0 with
        | LoopOut.aborted st => GenOutcome.result none st
        | LoopOut.spin st => GenOutcome.result none st
        | LoopOut.finished st =>
            if st.validImageCount < req.count then
              GenOutcome.result (some st.urls)
                { st with events := st.events
                    ++ [(req.userId, WSEvent.imageFiltered imageFilteredMessage)] }
            else
              GenOutcome.result (some st.urls)
                { st with events := st.events
                    ++ [(req.userId, WSEvent.imageGenerationDone)] } := by
  simp only [generateImage, hk]
  rw [if_neg hke]

/-- Case shape of a generateImage invocation: either the credential is
falsy and it throws, or the loop ran with some preset and the outcome
is determined by the loop result and the post-loop notification. -/
theorem generateImage_shape (env : Env) (req : ImageRequest) :
    generateImage env req = GenOutcome.thrown
    ∨ ∃ preset,
        (∃ st, genLoop env req preset genFuel st0 = LoopOut.aborted st
            ∧ generateImage env req = GenOutcome.result none st)
      ∨ (∃ st, genLoop env req preset genFuel st0 = LoopOut.spin st
            ∧ generateImage env req = GenOutcome.result none st)
      ∨ (∃ st, genLoop env req preset genFuel st0 = LoopOut.finished st
          ∧ ((st.validImageCount < req.count
              ∧ generateImage env req = GenOutcome.result (some st.urls)
                  { st with events := st.events
                      ++ [(req.userId, WSEvent.imageFiltered imageFilteredMessage)] })
            ∨ (¬ st.validImageCount < req.count
              ∧ generateImage env req = GenOutcome.result (some st.urls)
                  { st with events := st.events
                      ++ [(req.userId, WSEvent.imageGenerationDone)] }))) := by
  cases hk : env.apiKey with
  | none => exact Or.inl (by simp [generateImage, hk])
  | some key =>
      by_cases hke : key = ""
      · exact Or.inl (by simp [generateImage, hk, hke])
      · right
        refine ⟨presetOf req, ?_⟩
        have he := generateImage_eq env req key hk hke
        cases hLo : genLoop env req (presetOf req) genFuel st0 with
        | aborted st =>
            rw [hLo] at he
            exact Or.inl ⟨st, rfl, he⟩
        | spin st =>
            rw [hLo] at he
            exact Or.inr (Or.inl ⟨st, rfl, he⟩)
        | finished st =>
            rw [hLo] at he
            have he2 : generateImage env req
                = if st.validImageCount < req.count then
                    GenOutcome.result (some st.urls)
                      { st with events := st.events
                          ++ [(req.userId, WSEvent.imageFiltered imageFilteredMessage)] }
                  else
                    GenOutcome.result (some st.urls)
                      { st with events := st.events
                          ++ [(req.userId, WSEvent.imageGenerationDone)] } := he
            refine Or.inr (Or.inr ⟨st, rfl, ?_⟩)
            by_cases hv : st.validImageCount < req.count
            · rw [if_pos hv] at he2
              exact Or.inl ⟨hv, he2⟩
            · rw [if_neg hv] at he2
              exact Or.inr ⟨hv, he2⟩

/-- A batch processed while validImageCount already equals
request.count is dropped whole by the break. -/
theorem processArtifacts_at_cap (env : Env) (req : ImageRequest) (preset : String)
    (l : List SDArtifact) (st : St) (h : st.validImageCount = req.count) :
    processArtifacts env req preset l st = st := by
  cases l with
  | nil => rfl
  | cons a rest => rw [processArtifacts, if_pos h]

/-- One iteration never decreases validImageCount, whatever the client
does. -/
theorem loopBody_valid_mono (env : Env) (req : ImageRequest) (preset : String)
    (st : St) :
    st.validImageCount ≤ (loopBody env req preset st).state.validImageCount := by
  cases h : env.http st.calls.length (req.count - st.validImageCount) with
  | none =>
      rw [loopBody_eq_none env req preset st h]
      exact le_refl _
  | some arts =>
      rw [loopBody_eq_some env req preset st arts h]
      simp only [BodyOut.state]
      have hm := (processArtifacts_inv env req preset (filterSuccess arts)
        { st with tries := st.tries + req.count,
                  calls := st.calls ++ [req.count - st.validImageCount] }).2.2.1
      simpa using hm

/-- Every iteration logs exactly one generation-client call. -/
theorem loopBody_calls_length (env : Env) (req : ImageRequest) (preset : String)
    (st : St) :
    (loopBody env req preset st).state.calls.length = st.calls.length + 1 := by
  cases h : env.http st.calls.length (req.count - st.validImageCount) with
  | none =>
      rw [loopBody_eq_none env req preset st h]
      simp [BodyOut.state]
  | some arts =>
      rw [loopBody_eq_some env req preset st arts h]
      simp only [BodyOut.state]
      have hc := (processArtifacts_inv env req preset (filterSuccess arts)
        { st with tries := st.tries + req.count,
                  calls := st.calls ++ [req.count - st.validImageCount] }).2.1
      rw [hc]
      simp

/-- Fuel adequacy of the embedding: the loop exhausts its fuel on no
input whose fuel covers the try budget (or whose count is
non-positive, where the guard fails after one body). -/
theorem genLoop_no_spin (env : Env) (req : ImageRequest) (preset : String) :
    ∀ (fuel : Nat) (st : St), 0 ≤ st.validImageCount → 1 ≤ fuel →
      (req.count ≤ 0 ∨ maxImageTries ≤ st.tries + req.count * fuel) →
      ∀ stX, genLoop env req preset fuel st ≠ LoopOut.spin stX := by
  intro fuel
  induction fuel with
  | zero =>
      intro st _ h1 _ stX
      exact absurd h1 (by decide)
  | succ f ih =>
      intro st h0 _ hdisj stX
      have hmono := loopBody_valid_mono env req preset st
      have htry := loopBody_tries env req preset st
      cases hb : loopBody env req preset st with
      | aborted st1 =>
          rw [genLoop_succ_aborted env req preset f st st1 hb]
          simp
      | completed st1 =>
          rw [hb] at hmono htry
          simp only [BodyOut.state] at hmono htry
          rw [genLoop_succ_completed env req preset f st st1 hb]
          by_cases hg : st1.validImageCount < req.count ∧ st1.tries < maxImageTries
          · rw [if_pos hg]
            obtain ⟨hg1, hg2⟩ := hg
            have h0' : 0 ≤ st1.validImageCount := le_trans h0 hmono
            have hcount : 1 ≤ req.count := by omega
            rcases hdisj with hneg | hbound
            · exfalso
              omega
            · have hf1 : 1 ≤ f := by
                by_contra hf0
                have hfz : f = 0 := by omega
                subst hfz
                simp only [maxImageTries] at hbound hg2
                push_cast at hbound
                omega
              refine ih st1 h0' hf1 (Or.inr ?_) stX
              push_cast at hbound ⊢
              rw [show req.count * ((f : Int) + 1) = req.count * f + req.count from
                by ring] at hbound
              rw [htry]
              linarith
          · rw [if_neg hg]
            simp

/-- The fuel generateImage passes is adequate from the initial state. -/
theorem genLoop_no_spin_start (env : Env) (req : ImageRequest) (preset : String)
    (stX : St) : genLoop env req preset genFuel st0 ≠ LoopOut.spin stX := by
  refine genLoop_no_spin env req preset genFuel st0 (by simp [st0])
    (by simp [genFuel]) ?_ stX
  rcases le_or_lt req.count 0 with h | h
  · exact Or.inl h
  · refine Or.inr ?_
    simp only [st0, maxImageTries, genFuel]
    push_cast
    nlinarith [h]

/-- State reached after m executions of the do-while body from the
initial state, whatever the client returned on each; it lets a theorem
speak about an arbitrary later iteration of a run. -/
def iterState (env : Env) (req : ImageRequest) (preset : String) : Nat → St
  | 0 => st0
  | Nat.succ m => (loopBody env req preset (iterState env req preset m)).state

/-- Unfolding of one more iteration. -/
theorem iterState_succ (env : Env) (req : ImageRequest) (preset : String) (m : Nat) :
    iterState env req preset (m + 1)
      = (loopBody env req preset (iterState env req preset m)).state := by
  simp only [iterState]

/-- After m iterations exactly m generation calls were logged. -/
theorem iterState_calls (env : Env) (req : ImageRequest) (preset : String) :
    ∀ m, (iterState env req preset m).calls.length = m := by
  intro m
  induction m with
  | zero => simp [iterState, st0]
  | succ n ih => rw [iterState_succ, loopBody_calls_length, ih]

/-- After m iterations the tries counter is m times the original
count. -/
theorem iterState_tries (env : Env) (req : ImageRequest) (preset : String) :
    ∀ m, (iterState env req preset m).tries = m * req.count := by
  intro m
  induction m with
  | zero => simp [iterState, st0]
  | succ n ih =>
      rw [iterState_succ, loopBody_tries, ih]
      push_cast
      ring

/-- validImageCount stays non-negative along the iterations. -/
theorem iterState_valid_nonneg (env : Env) (req : ImageRequest) (preset : String) :
    ∀ m, 0 ≤ (iterState env req preset m).validImageCount := by
  intro m
  induction m with
  | zero => simp [iterState, st0]
  | succ n ih =>
      rw [iterState_succ]
      exact le_trans ih (loopBody_valid_mono env req preset _)

/-- The run invariant holds after any number of iterations. -/
theorem iterState_inv (env : Env) (req : ImageRequest) (preset : String)
    (hc : 0 ≤ req.count) :
    ∀ m, Inv req (iterState env req preset m) := by
  intro m
  induction m with
  | zero =>
      refine ⟨le_refl 0, hc, rfl, rfl, rfl, ?_⟩
      intro c hcin
      simp [iterState, st0] at hcin
  | succ n ih =>
      rw [iterState_succ]
      exact loopBody_inv env req preset _ ih

/-- As long as the client kept answering, the notifications of the
first m iterations are image-created ones only. -/
theorem iterState_events_created (env : Env) (req : ImageRequest) (preset : String) :
    ∀ m, (∀ i, i < m →
        env.http i (req.count - (iterState env req preset i).validImageCount)
          ≠ none) →
      ∀ e ∈ (iterState env req preset m).events, CreatedFor req.userId e := by
  intro m
  induction m with
  | zero =>
      intro _ e he
      simp [iterState, st0] at he
  | succ n ih =>
      intro hresp e he
      obtain ⟨arts, harts⟩ : ∃ arts,
          env.http (iterState env req preset n).calls.length
            (req.count - (iterState env req preset n).validImageCount)
          = some arts := by
        have hr := hresp n (by omega)
        rw [iterState_calls env req preset n]
        cases hx : env.http n
            (req.count - (iterState env req preset n).validImageCount) with
        | none => exact absurd hx hr
        | some a => exact ⟨a, rfl⟩
      rw [iterState_succ, loopBody_eq_some env req preset _ arts harts] at he
      simp only [BodyOut.state] at he
      obtain ⟨_, _, _, _, _, _, _, evs, hev, hall⟩ :=
        processArtifacts_inv env req preset (filterSuccess arts)
          { iterState env req preset n with
              tries := (iterState env req preset n).tries + req.count,
              calls := (iterState env req preset n).calls
                ++ [req.count - (iterState env req preset n).validImageCount] }
      rw [hev] at he
      rcases List.mem_append.mp he with h1 | h2
      · exact ih (fun i hi => hresp i (by omega)) e (by simpa using h1)
      · exact hall e h2

/-- Chaining lemma: as long as the client answered every earlier call
and the loop guard held after each of the first m iterations, running
the loop from the start is running it from the state after m
iterations with m units of fuel consumed. -/
theorem genLoop_iterState (env : Env) (req : ImageRequest) (preset : String) :
    ∀ (m fuel : Nat), m ≤ fuel →
      (∀ i, i < m →
        env.http i (req.count - (iterState env req preset i).validImageCount)
          ≠ none) →
      (∀ i, i ≤ m → 1 ≤ i →
        (iterState env req preset i).validImageCount < req.count
        ∧ (iterState env req preset i).tries < maxImageTries) →
      genLoop env req preset fuel st0
        = genLoop env req preset (fuel - m) (iterState env req preset m) := by
  intro m
  induction m with
  | zero =>
      intro fuel _ _ _
      simp [iterState]
  | succ n ih =>
      intro fuel hmf hresp hcont
      rw [ih fuel (by omega) (fun i hi => hresp i (by omega))
        (fun i h1 h2 => hcont i (by omega) h2)]
      obtain ⟨arts, harts⟩ : ∃ arts,
          env.http (iterState env req preset n).calls.length
            (req.count - (iterState env req preset n).validImageCount)
          = some arts := by
        have hr := hresp n (by omega)
        rw [iterState_calls env req preset n]
        cases hx : env.http n
            (req.count - (iterState env req preset n).validImageCount) with
        | none => exact absurd hx hr
        | some a => exact ⟨a, rfl⟩
      have hbody := loopBody_eq_some env req preset (iterState env req preset n)
        arts harts
      have hnext : iterState env req preset (n + 1)
          = processArtifacts env req preset (filterSuccess arts)
              { iterState env req preset n with
                  tries := (iterState env req preset n).tries + req.count,
                  calls := (iterState env req preset n).calls
                    ++ [req.count - (iterState env req preset n).validImageCount] } := by
        rw [iterState_succ, hbody]
        rfl
      obtain ⟨f2, hf2⟩ : ∃ f2, fuel - n = f2 + 1 := ⟨fuel - n - 1, by omega⟩
      rw [hf2]
      have hstep := genLoop_succ_completed env req preset f2
        (iterState env req preset n) _ hbody
      have hg := hcont (n + 1) (le_refl _) (by omega)
      rw [hnext] at hg
      rw [hstep, if_pos hg]
      have hfm : fuel - (n + 1) = f2 := by omega
      rw [hfm, hnext]

/-!
Concrete fixtures used by counterexamples and witnesses.
-/

/-- An artifact the generation service accepted. -/
def okArtifact : SDArtifact :=
  { base64 := "aW1hZ2U=", seed := 11, finishReason := FinishReason.SUCCESS }

/-- An artifact the generation service content-filtered. -/
def filteredArtifact : SDArtifact :=
  { base64 := "aW1hZ2U=", seed := 12, finishReason := FinishReason.CONTENT_FILTERED }

/-- A minimal request asking for n images. -/
def sampleRequest (n : Int) : ImageRequest :=
  { userId := 7, prompt := "a dragon", count := n, negativePrompt := none,
    stylePreset := none, linking := none }

/-- A configured environment whose client always throws. -/
def baseEnv : Env :=
  { apiKey := some "key", http := fun _ _ => none,
    uuid := fun i => "img" ++ toString i, isLocalDevelopment := true,
    apiUrl := "http://localhost:8000" }

/-- Client returning exactly the requested number of SUCCESS artifacts
on every call. -/
def envAllSuccess : Env :=
  { baseEnv with http := fun _ n => some (List.replicate n.toNat okArtifact) }

/-- Client returning one CONTENT_FILTERED artifact on every call. -/
def envAllFiltered : Env :=
  { baseEnv with http := fun _ _ => some [filteredArtifact] }

/-- Client returning five SUCCESS artifacts regardless of how many were
requested. -/
def envOverdeliver : Env :=
  { baseEnv with http := fun _ _ => some (List.replicate 5 okArtifact) }

/-- Client of the try-counter scenario: first batch yields 3 successes,
later batches yield exactly what is requested. -/
def envScenario : Env :=
  { baseEnv with http := fun i n =>
      (if i = 0 then some (List.replicate 3 okArtifact)
       else some (List.replicate n.toNat okArtifact)) }

/-- Client accepting one artifact on each of its first two calls
(partial batches) and throwing on the third. -/
def envLateFail : Env :=
  { baseEnv with http := fun i _ =>
      (if i = 0 then some [okArtifact, filteredArtifact]
       else if i = 1 then some [okArtifact]
       else none) }

/-!
Claims.
-/

/-- C7: generateImage raises a synchronous exception if and only if the
Stability API key is not configured (absent or falsy); in that case no
generation call is made and no notification is emitted; with a
configured key no exception reaches the caller, whatever the client
does. -/
theorem claim_c7_throw_iff_missing_key :
    ∀ (env : Env) (req : ImageRequest),
      (generateImage env req = GenOutcome.thrown
        ↔ (env.apiKey = none ∨ env.apiKey = some ""))
      ∧ (generateImage env req = GenOutcome.thrown →
          (stateOf (generateImage env req)).calls = []
          ∧ (stateOf (generateImage env req)).events = []) := by
  intro env req
  constructor
  · constructor
    · intro h
      cases hk : env.apiKey with
      | none => exact Or.inl rfl
      | some key =>
          by_cases hke : key = ""
          · exact Or.inr (by rw [hke])
          · exfalso
            rw [generateImage_eq env req key hk hke] at h
            cases hLo : genLoop env req (presetOf req) genFuel st0 with
            | aborted st =>
                rw [hLo] at h
                simp at h
            | spin st =>
                rw [hLo] at h
                simp at h
            | finished st =>
                rw [hLo] at h
                by_cases hv : st.validImageCount < req.count
                · simp [hv] at h
                · simp [hv] at h
    · intro h
      rcases h with h | h <;> simp [generateImage, h]
  · intro h
    rw [h]
    exact ⟨rfl, rfl⟩

/-- C7 witness: with no key configured, the call throws. -/
theorem claim_c7_witness :
    generateImage { baseEnv with apiKey := none } (sampleRequest 2)
      = GenOutcome.thrown :=
  (claim_c7_throw_iff_missing_key { baseEnv with apiKey := none }
    (sampleRequest 2)).1.mpr (Or.inl rfl)

/-- C2 counterexample: with count 16 and a client whose artifacts are
all content-filtered, the tries counter ends at 32, exceeding the try
budget of 30. -/
theorem claim_c2_counterexample :
    (stateOf (generateImage envAllFiltered (sampleRequest 16))).tries = 32
    ∧ ¬ (stateOf (generateImage envAllFiltered (sampleRequest 16))).tries
        ≤ maxImageTries := by
  constructor <;> decide

/-- C2 (amended): the tries counter never exceeds
maxImageTries - 1 + request.count: the budget can be overshot by at
most one final batch of the originally requested count. -/
theorem claim_c2_tries_bounded (env : Env) (req : ImageRequest)
    (hc : 0 ≤ req.count) :
    (stateOf (generateImage env req)).tries < maxImageTries + req.count := by
  rcases generateImage_shape env req with h |
    ⟨p, ⟨st, hLo, hg⟩ | ⟨st, hLo, hg⟩ | ⟨st, hLo, hor⟩⟩
  · rw [h]
    simp only [stateOf, st0, maxImageTries]
    omega
  · have ht := genLoop_tries env req p hc genFuel st0 (by simp [st0, maxImageTries])
    rw [hLo] at ht
    simp only [LoopOut.state] at ht
    rw [hg]
    simpa [stateOf] using ht
  · have ht := genLoop_tries env req p hc genFuel st0 (by simp [st0, maxImageTries])
    rw [hLo] at ht
    simp only [LoopOut.state] at ht
    rw [hg]
    simpa [stateOf] using ht
  · have ht := genLoop_tries env req p hc genFuel st0 (by simp [st0, maxImageTries])
    rw [hLo] at ht
    simp only [LoopOut.state] at ht
    rcases hor with ⟨hv, hg⟩ | ⟨hv, hg⟩ <;>
      · rw [hg]
        simpa [stateOf] using ht

/-- C2 witness: the amended bound evaluated on the all-filtered client
with count 16. -/
theorem claim_c2_witness :
    (stateOf (generateImage envAllFiltered (sampleRequest 16))).tries
      < maxImageTries + (sampleRequest 16).count :=
  claim_c2_tries_bounded envAllFiltered (sampleRequest 16) (by decide)

/-- C3: for a non-negative requested count, the number of recorded
artifacts never exceeds request.count, and every generation-client call
asked for a non-negative remainder. -/
theorem claim_c3_never_exceeds_count (env : Env) (req : ImageRequest)
    (hc : 0 ≤ req.count) :
    ((stateOf (generateImage env req)).recorded.length : Int) ≤ req.count
    ∧ ∀ c ∈ (stateOf (generateImage env req)).calls, 0 ≤ c := by
  have hInv0 : Inv req st0 := by
    refine ⟨le_refl 0, hc, rfl, rfl, rfl, ?_⟩
    intro c hcin
    simp [st0] at hcin
  rcases generateImage_shape env req with h |
    ⟨p, ⟨st, hLo, hg⟩ | ⟨st, hLo, hg⟩ | ⟨st, hLo, hor⟩⟩
  · rw [h]
    exact ⟨by simp [stateOf, st0]; omega, by simp [stateOf, st0]⟩
  · have hI := genLoop_inv env req p genFuel st0 hInv0
    rw [hLo] at hI
    simp only [LoopOut.state] at hI
    obtain ⟨_, h1, hr, _, _, hcalls⟩ := hI
    rw [hg]
    exact ⟨by simp [stateOf]; omega, by simpa [stateOf] using hcalls⟩
  · have hI := genLoop_inv env req p genFuel st0 hInv0
    rw [hLo] at hI
    simp only [LoopOut.state] at hI
    obtain ⟨_, h1, hr, _, _, hcalls⟩ := hI
    rw [hg]
    exact ⟨by simp [stateOf]; omega, by simpa [stateOf] using hcalls⟩
  · have hI := genLoop_inv env req p genFuel st0 hInv0
    rw [hLo] at hI
    simp only [LoopOut.state] at hI
    obtain ⟨_, h1, hr, _, _, hcalls⟩ := hI
    rcases hor with ⟨hv, hg⟩ | ⟨hv, hg⟩ <;>
      · rw [hg]
        exact ⟨by simp [stateOf]; omega, by simpa [stateOf] using hcalls⟩

/-- C3 witness: even a client over-delivering five SUCCESS artifacts
per call records at most the two requested. -/
theorem claim_c3_witness :
    ((stateOf (generateImage envOverdeliver (sampleRequest 2))).recorded.length : Int)
        ≤ (sampleRequest 2).count
    ∧ ∀ c ∈ (stateOf (generateImage envOverdeliver (sampleRequest 2))).calls,
        0 ≤ c :=
  claim_c3_never_exceeds_count envOverdeliver (sampleRequest 2) (by decide)

/-- C9: postToStableDiffusion is only ever invoked at depth 0 by
generateImage, so updatedPrompt stays absent and the prompt-rephrased
notification is never emitted, whatever the environment and request. -/
theorem claim_c9_no_rephrase (env : Env) (req : ImageRequest) :
    ((stateOf (generateImage env req)).events).filter isRephraseEntry = [] := by
  rcases generateImage_shape env req with h |
    ⟨p, ⟨st, hLo, hg⟩ | ⟨st, hLo, hg⟩ | ⟨st, hLo, hor⟩⟩
  · rw [h]
    simp [stateOf, st0]
  · have hr := genLoop_rephrase env req p genFuel st0
    rw [hLo] at hr
    simp only [LoopOut.state] at hr
    rw [hg]
    simp only [stateOf]
    rw [hr]
    simp [st0]
  · have hr := genLoop_rephrase env req p genFuel st0
    rw [hLo] at hr
    simp only [LoopOut.state] at hr
    rw [hg]
    simp only [stateOf]
    rw [hr]
    simp [st0]
  · have hr := genLoop_rephrase env req p genFuel st0
    rw [hLo] at hr
    simp only [LoopOut.state] at hr
    rcases hor with ⟨hv, hg⟩ | ⟨hv, hg⟩ <;>
      · rw [hg]
        simp only [stateOf]
        rw [List.filter_append, hr]
        simp [st0, isRephraseEntry]

/-- C6: every iteration adds the originally requested count to the
tries counter, never the shrinking remainder; in the spec scenario
(count 10, first batch 3 successes, second batch requested for the 7
remaining) the counter reaches 20 after the two iterations, with the
two calls requesting 10 and then 7 samples. -/
theorem claim_c6_tries_increment_by_original_count :
    (∀ (env : Env) (req : ImageRequest) (preset : String) (st : St),
        (loopBody env req preset st).state.tries = st.tries + req.count)
    ∧ (stateOf (generateImage envScenario (sampleRequest 10))).tries = 20
    ∧ (stateOf (generateImage envScenario (sampleRequest 10))).calls = [10, 7] := by
  refine ⟨fun env req preset st => loopBody_tries env req preset st, ?_, ?_⟩
  · decide
  · decide

/-- C4: a failing HTTP call makes postToStableDiffusion emit the
image-error notification to the requesting user and return no
response; a client failing on the very first attempt makes
generateImage return no result (not an empty list) with zero artifacts
recorded. -/
theorem claim_c4_hard_failure_aborts :
    (∀ (env : Env) (callIdx : Nat) (req : ImageRequest) (preset : String)
        (hist : List String) (depth : Nat),
        depth ≤ 5 →
        env.http callIdx req.count = none →
        postToStableDiffusion env callIdx req preset hist depth
          = (none, [(req.userId, WSEvent.imageError imageErrorMessage)]))
    ∧ (∀ (env : Env) (req : ImageRequest) (key : String),
        env.apiKey = some key → ¬ key = "" →
        env.http 0 req.count = none →
        generateImage env req
          = GenOutcome.result none
              { st0 with tries := req.count,
                         calls := [req.count],
                         events := [(req.userId, WSEvent.imageError imageErrorMessage)] }) := by
  constructor
  · intro env callIdx req preset hist depth hd hh
    unfold postToStableDiffusion
    rw [if_neg (by omega), hh]
  · intro env req key hk hke hh
    have h0 : env.http st0.calls.length (req.count - st0.validImageCount) = none := by
      simpa [st0] using hh
    have hbody := loopBody_eq_none env req (presetOf req) st0 h0
    have hstep : genLoop env req (presetOf req) genFuel st0
        = LoopOut.aborted
            { st0 with
                tries := st0.tries + req.count,
                calls := st0.calls ++ [req.count - st0.validImageCount],
                events := st0.events
                  ++ [(req.userId, WSEvent.imageError imageErrorMessage)] } :=
      genLoop_succ_aborted env req (presetOf req) 30 st0 _ hbody
    rw [generateImage_eq env req key hk hke, hstep]
    simp [st0]

/-- C4 witness: both parts evaluated on the always-failing client with
a configured key and count 2. -/
theorem claim_c4_witness :
    postToStableDiffusion baseEnv 0 (sampleRequest 2) "fantasy-art" [] 0
        = (none, [((sampleRequest 2).userId, WSEvent.imageError imageErrorMessage)])
    ∧ generateImage baseEnv (sampleRequest 2)
        = GenOutcome.result none
            { st0 with tries := (sampleRequest 2).count,
                       calls := [(sampleRequest 2).count],
                       events := [((sampleRequest 2).userId,
                         WSEvent.imageError imageErrorMessage)] } :=
  ⟨claim_c4_hard_failure_aborts.1 baseEnv 0 (sampleRequest 2) "fantasy-art" [] 0
      (by decide) rfl,
   claim_c4_hard_failure_aborts.2 baseEnv (sampleRequest 2) "key" rfl (by decide) rfl⟩

/-- C8 counterexample: with count 0 the do-while body still runs once,
so a client that fails on that single call makes generateImage return
undefined with an image-error notification and no generation-done
notification, contrary to an immediate empty success. -/
theorem claim_c8_counterexample :
    generateImage baseEnv (sampleRequest 0)
      = GenOutcome.result none
          { st0 with calls := [0],
                     events := [(7, WSEvent.imageError imageErrorMessage)] }
    ∧ (stateOf (generateImage baseEnv (sampleRequest 0))).events.filter isDoneEntry
        = [] := by
  constructor
  · decide
  · decide

/-- C8 (amended): with count 0 the do-while body runs exactly once,
issuing one generation call for a remainder of 0 and never adding an
artifact; if that call returns a response the function returns an empty
URI list with the generation-done notification, and if it fails the
function returns undefined with the image-error notification. -/
theorem claim_c8_count_zero (env : Env) (req : ImageRequest) (key : String)
    (hk : env.apiKey = some key) (hke : ¬ key = "") (hc : req.count = 0) :
    (env.http 0 0 = none →
        generateImage env req
          = GenOutcome.result none
              { st0 with calls := [0],
                         events := [(req.userId, WSEvent.imageError imageErrorMessage)] })
    ∧ ∀ arts, env.http 0 0 = some arts →
        generateImage env req
          = GenOutcome.result (some [])
              { st0 with calls := [0],
                         events := [(req.userId, WSEvent.imageGenerationDone)] } := by
  constructor
  · intro hh
    have h0 : env.http st0.calls.length (req.count - st0.validImageCount) = none := by
      simpa [st0, hc] using hh
    have hbody := loopBody_eq_none env req (presetOf req) st0 h0
    have hstep : genLoop env req (presetOf req) genFuel st0
        = LoopOut.aborted
            { st0 with
                tries := st0.tries + req.count,
                calls := st0.calls ++ [req.count - st0.validImageCount],
                events := st0.events
                  ++ [(req.userId, WSEvent.imageError imageErrorMessage)] } :=
      genLoop_succ_aborted env req (presetOf req) 30 st0 _ hbody
    rw [generateImage_eq env req key hk hke, hstep]
    simp [st0, hc]
  · intro arts hh
    have h0 : env.http st0.calls.length (req.count - st0.validImageCount)
        = some arts := by
      simpa [st0, hc] using hh
    have hbody := loopBody_eq_some env req (presetOf req) st0 arts h0
    rw [processArtifacts_at_cap env req (presetOf req) _ _ (by simp [st0, hc])]
      at hbody
    have hstep := genLoop_succ_completed env req (presetOf req) 30 st0 _ hbody
    rw [if_neg (by simp [st0, hc])] at hstep
    have hstep2 : genLoop env req (presetOf req) genFuel st0
        = LoopOut.finished
            { st0 with
                tries := st0.tries + req.count,
                calls := st0.calls ++ [req.count - st0.validImageCount] } := hstep
    rw [generateImage_eq env req key hk hke, hstep2]
    simp [st0, hc]

/-- C8 witness: the amended behaviour evaluated with a count of 0 on
the always-succeeding client. -/
theorem claim_c8_witness :
    generateImage envAllSuccess (sampleRequest 0)
      = GenOutcome.result (some [])
          { st0 with calls := [0],
                     events := [((sampleRequest 0).userId,
                       WSEvent.imageGenerationDone)] } :=
  (claim_c8_count_zero envAllSuccess (sampleRequest 0) "key" rfl (by decide) rfl).2
    (List.replicate (0:Int).toNat okArtifact) rfl

/-- C1: with count N of at least 1 and a client returning on every call
exactly the requested number of artifacts, all SUCCESS, generateImage
records exactly N artifacts, returns the N produced URIs in production
order, emits N image-created notifications followed by the
generation-done notification, and no filtered notification; one
generation call suffices. -/
theorem claim_c1_all_success (env : Env) (req : ImageRequest) (key : String)
    (hk : env.apiKey = some key) (hke : ¬ key = "") (hN : 1 ≤ req.count)
    (hclient : ∀ (i : Nat) (n : Int), 0 ≤ n → ∃ arts,
        env.http i n = some arts ∧ (arts.length : Int) = n
        ∧ ∀ a ∈ arts, a.finishReason = FinishReason.SUCCESS) :
    ∃ st, generateImage env req = GenOutcome.result (some st.urls) st
      ∧ (st.urls.length : Int) = req.count
      ∧ (st.recorded.length : Int) = req.count
      ∧ (∃ evs, st.events = evs ++ [(req.userId, WSEvent.imageGenerationDone)]
          ∧ ∀ e ∈ evs, CreatedFor req.userId e)
      ∧ st.events.filter isFilteredEntry = []
      ∧ st.calls = [req.count] := by
  obtain ⟨arts, hhttp, hlen, hsucc⟩ := hclient 0 req.count (by omega)
  have hfs : filterSuccess arts = arts := by
    unfold filterSuccess
    rw [List.filter_eq_self]
    intro a ha
    simp [hsucc a ha]
  have h0 : env.http st0.calls.length (req.count - st0.validImageCount)
      = some arts := by
    simpa [st0] using hhttp
  have hbody := loopBody_eq_some env req (presetOf req) st0 arts h0
  rw [hfs] at hbody
  obtain ⟨hv, hu, hr, hs2, ht, hcalls, evs, hev, hlen2, hall⟩ :=
    processArtifacts_full env req (presetOf req) arts
      { st0 with tries := st0.tries + req.count,
                 calls := st0.calls ++ [req.count - st0.validImageCount] }
      (by simp [st0]; omega)
  set P := processArtifacts env req (presetOf req) arts
      { st0 with tries := st0.tries + req.count,
                 calls := st0.calls ++ [req.count - st0.validImageCount] } with hPdef
  have hPv : P.validImageCount = req.count := by
    rw [hv]
    simp [st0]
    omega
  have hguard : ¬ (P.validImageCount < req.count ∧ P.tries < maxImageTries) := by
    rw [hPv]
    simp
  have hstep := genLoop_succ_completed env req (presetOf req) 30 st0 P hbody
  rw [if_neg hguard] at hstep
  have hstep2 : genLoop env req (presetOf req) genFuel st0 = LoopOut.finished P :=
    hstep
  have he : generateImage env req
      = if P.validImageCount < req.count then
          GenOutcome.result (some P.urls)
            { P with events := P.events
                ++ [(req.userId, WSEvent.imageFiltered imageFilteredMessage)] }
        else
          GenOutcome.result (some P.urls)
            { P with events := P.events
                ++ [(req.userId, WSEvent.imageGenerationDone)] } := by
    rw [generateImage_eq env req key hk hke, hstep2]
  rw [if_neg (by rw [hPv]; simp)] at he
  refine ⟨{ P with events := P.events ++ [(req.userId, WSEvent.imageGenerationDone)] },
    he, ?_, ?_, ?_, ?_, ?_⟩
  · show ((P.urls.length : Int)) = req.count
    rw [hu]
    simp [st0]
    omega
  · show ((P.recorded.length : Int)) = req.count
    rw [hr]
    simp [st0]
    omega
  · refine ⟨evs, ?_, hall⟩
    show P.events ++ [(req.userId, WSEvent.imageGenerationDone)]
      = evs ++ [(req.userId, WSEvent.imageGenerationDone)]
    rw [hev]
    simp [st0]
  · show (P.events ++ [(req.userId, WSEvent.imageGenerationDone)]).filter
        isFilteredEntry = []
    rw [List.filter_append, hev, List.filter_append]
    have h1 : evs.filter isFilteredEntry = [] := by
      rw [List.filter_eq_nil_iff]
      intro e he2
      obtain ⟨_, img, himg⟩ := hall e he2
      simp [isFilteredEntry, himg]
    simp [st0, h1, isFilteredEntry]
  · show P.calls = [req.count]
    rw [hcalls]
    simp [st0]

/-- C1 witness: the always-succeeding client with count 2. -/
theorem claim_c1_witness :
    ∃ st, generateImage envAllSuccess (sampleRequest 2)
        = GenOutcome.result (some st.urls) st
      ∧ (st.urls.length : Int) = (sampleRequest 2).count
      ∧ (st.recorded.length : Int) = (sampleRequest 2).count
      ∧ (∃ evs, st.events
            = evs ++ [((sampleRequest 2).userId, WSEvent.imageGenerationDone)]
          ∧ ∀ e ∈ evs, CreatedFor (sampleRequest 2).userId e)
      ∧ st.events.filter isFilteredEntry = []
      ∧ st.calls = [(sampleRequest 2).count] :=
  claim_c1_all_success envAllSuccess (sampleRequest 2) "key" rfl (by decide)
    (by decide)
    (fun i n hn =>
      ⟨List.replicate n.toNat okArtifact, rfl,
        by simp [Int.toNat_of_nonneg hn],
        by
          intro a ha
          rw [List.eq_of_mem_replicate ha]
          rfl⟩)

/-- Behaviour of the do-while loop under a client none of whose
artifacts survive the SUCCESS filter: nothing accumulates, each
iteration asks for the full count again, and the loop stops after the
first iteration that put tries at or past the budget. -/
theorem genLoop_filtered (env : Env) (req : ImageRequest) (preset : String)
    (hclient : ∀ (i : Nat) (n : Int), ∃ arts, env.http i n = some arts
        ∧ filterSuccess arts = [])
    (hN : 1 ≤ req.count) :
    ∀ (fuel : Nat) (st : St), st.validImageCount = 0 →
      st.tries < maxImageTries →
      maxImageTries ≤ st.tries + req.count * fuel →
      ∃ j : Nat, 1 ≤ j
        ∧ genLoop env req preset fuel st
            = LoopOut.finished
                { st with tries := st.tries + j * req.count,
                          calls := st.calls ++ List.replicate j req.count }
        ∧ st.tries + ((j : Int) - 1) * req.count < maxImageTries := by
  intro fuel
  induction fuel with
  | zero =>
      intro st hv ht hf
      exfalso
      simp at hf
      omega
  | succ f ih =>
      intro st hv ht hf
      obtain ⟨u, v, t, rc, ev, so, ca⟩ := st
      simp only at hv ht hf
      subst hv
      obtain ⟨arts, hhttp, hfs⟩ := hclient ca.length (req.count - 0)
      have hbody := loopBody_eq_some env req preset (St.mk u 0 t rc ev so ca) arts hhttp
      rw [hfs] at hbody
      have hbody2 : loopBody env req preset (St.mk u 0 t rc ev so ca)
          = BodyOut.completed
              (St.mk u 0 (t + req.count) rc ev so (ca ++ [req.count - 0])) := hbody
      have hstep := genLoop_succ_completed env req preset f _ _ hbody2
      by_cases hg2 : t + req.count < maxImageTries
      · have hg : (St.mk u 0 (t + req.count) rc ev so
              (ca ++ [req.count - 0])).validImageCount < req.count
            ∧ (St.mk u 0 (t + req.count) rc ev so
              (ca ++ [req.count - 0])).tries < maxImageTries := by
          constructor
          · simpa using hN
          · simpa using hg2
        rw [if_pos hg] at hstep
        have hfuel2 : maxImageTries
            ≤ (St.mk u 0 (t + req.count) rc ev so (ca ++ [req.count - 0])).tries
              + req.count * f := by
          have hexp : req.count * ((f : Int) + 1) = req.count * f + req.count := by
            ring
          push_cast at hf
          simp only [St.mk.injEq]
          linarith
        obtain ⟨j, hj1, hjeq, hjlt⟩ :=
          ih (St.mk u 0 (t + req.count) rc ev so (ca ++ [req.count - 0])) rfl
            (by simpa using hg2) hfuel2
        rw [hjeq] at hstep
        refine ⟨j + 1, by omega, ?_, ?_⟩
        · rw [hstep]
          simp [List.replicate_succ, St.mk.injEq]
          ring
        · have hexp2 : t + ((j : Int) + 1 - 1) * req.count
              = (t + req.count) + ((j : Int) - 1) * req.count := by
            ring
          simp only at hjlt
          push_cast
          rw [hexp2]
          exact hjlt
      · have hg : ¬ ((St.mk u 0 (t + req.count) rc ev so
              (ca ++ [req.count - 0])).validImageCount < req.count
            ∧ (St.mk u 0 (t + req.count) rc ev so
              (ca ++ [req.count - 0])).tries < maxImageTries) := by
          simp only [St.mk.injEq, not_and]
          intro _
          simpa using hg2
        rw [if_neg hg] at hstep
        refine ⟨1, le_refl 1, ?_, ?_⟩
        · rw [hstep]
          simp [St.mk.injEq]
        · simpa using ht

/-- C5 (amended): with count N of at least 1 and every batch entirely
content-filtered, the loop still terminates, within the ceiling of
maxImageTries / count iterations (each non-final iteration started
under the budget), returning an empty URI list with the filtered
notification and no artifacts recorded. -/
theorem claim_c5_all_filtered (env : Env) (req : ImageRequest) (key : String)
    (hk : env.apiKey = some key) (hke : ¬ key = "") (hN : 1 ≤ req.count)
    (hclient : ∀ (i : Nat) (n : Int), ∃ arts, env.http i n = some arts
        ∧ filterSuccess arts = []) :
    ∃ st, generateImage env req = GenOutcome.result (some []) st
      ∧ st.events = [(req.userId, WSEvent.imageFiltered imageFilteredMessage)]
      ∧ st.recorded = []
      ∧ 1 ≤ st.calls.length
      ∧ ((st.calls.length : Int) - 1) * req.count < maxImageTries := by
  obtain ⟨j, hj1, hjeq, hjlt⟩ :=
    genLoop_filtered env req (presetOf req) hclient hN genFuel st0 rfl
      (by simp [st0, maxImageTries])
      (by
        simp only [st0, maxImageTries, genFuel]
        push_cast
        nlinarith [hN])
  set stF : St := { st0 with
      tries := st0.tries + j * req.count,
      calls := st0.calls ++ List.replicate j req.count } with hstF
  have he : generateImage env req
      = if stF.validImageCount < req.count then
          GenOutcome.result (some stF.urls)
            { stF with events := stF.events
                ++ [(req.userId, WSEvent.imageFiltered imageFilteredMessage)] }
        else
          GenOutcome.result (some stF.urls)
            { stF with events := stF.events
                ++ [(req.userId, WSEvent.imageGenerationDone)] } := by
    rw [generateImage_eq env req key hk hke, hjeq]
  rw [if_pos (by simp [hstF, st0]; omega)] at he
  refine ⟨_, he, ?_, ?_, ?_, ?_⟩
  · simp [hstF, st0]
  · simp [hstF, st0]
  · simp [hstF, st0]
    omega
  · simp only [hstF, st0] at hjlt ⊢
    simpa using hjlt

/-- C5 counterexample: with count 4 the all-filtered run makes 8
generation calls, exceeding 30/4 iterations (natural division). -/
theorem claim_c5_counterexample :
    (stateOf (generateImage envAllFiltered (sampleRequest 4))).calls.length = 8
    ∧ ¬ ((stateOf (generateImage envAllFiltered (sampleRequest 4))).calls.length
        ≤ 30 / 4) := by
  constructor
  · decide
  · decide

/-- C5 witness: the amended statement evaluated on the all-filtered
client with count 4. -/
theorem claim_c5_witness :
    ∃ st, generateImage envAllFiltered (sampleRequest 4)
        = GenOutcome.result (some []) st
      ∧ st.events = [((sampleRequest 4).userId,
          WSEvent.imageFiltered imageFilteredMessage)]
      ∧ st.recorded = []
      ∧ 1 ≤ st.calls.length
      ∧ ((st.calls.length : Int) - 1) * (sampleRequest 4).count < maxImageTries :=
  claim_c5_all_filtered envAllFiltered (sampleRequest 4) "key" rfl (by decide)
    (by decide) (fun i n => ⟨[filteredArtifact], rfl, rfl⟩)

/-- C10: if the client hard-fails on the generation call of iteration
m + 1, for any m of at least 1, after k of the requested images were
accepted over the first m iterations, generateImage returns undefined
while the k artifact records, blobs and produced URIs stay accumulated
and unreturned, and neither the done nor the filtered terminal
notification is emitted: the trace is image-created notifications
followed by the image-error one. -/
theorem claim_c10_late_failure (env : Env) (req : ImageRequest) (key : String)
    (hk : env.apiKey = some key) (hke : ¬ key = "")
    (m k : Nat) (hm1 : 1 ≤ m) (hk1 : 1 ≤ k)
    (hresp : ∀ i, i < m →
      env.http i (req.count
        - (iterState env req (presetOf req) i).validImageCount) ≠ none)
    (hcont : ∀ i, i ≤ m → 1 ≤ i →
      (iterState env req (presetOf req) i).validImageCount < req.count
      ∧ (iterState env req (presetOf req) i).tries < maxImageTries)
    (hacc : (iterState env req (presetOf req) m).validImageCount = (k : Int))
    (hfail : env.http m
      (req.count - (iterState env req (presetOf req) m).validImageCount) = none) :
    generateImage env req
        = GenOutcome.result none (iterState env req (presetOf req) (m + 1))
    ∧ (iterState env req (presetOf req) (m + 1)).recorded.length = k
    ∧ (iterState env req (presetOf req) (m + 1)).stored.length = k
    ∧ (iterState env req (presetOf req) (m + 1)).urls.length = k
    ∧ (iterState env req (presetOf req) (m + 1)).events.filter isDoneEntry = []
    ∧ (iterState env req (presetOf req) (m + 1)).events.filter isFilteredEntry = []
    ∧ ∃ evs, (iterState env req (presetOf req) (m + 1)).events
          = evs ++ [(req.userId, WSEvent.imageError imageErrorMessage)]
        ∧ ∀ e ∈ evs, CreatedFor req.userId e := by
  have hvm0 := iterState_valid_nonneg env req (presetOf req) m
  have hcm := hcont m (le_refl m) hm1
  have hcount : 1 ≤ req.count := by
    have := hcm.1
    omega
  have hm30 : (m : Int) < maxImageTries := by
    have h2 := hcm.2
    rw [iterState_tries env req (presetOf req) m] at h2
    have hmm : (m : Int) * 1 ≤ (m : Int) * req.count :=
      mul_le_mul_of_nonneg_left hcount (by positivity)
    simp at hmm
    linarith
  have hm30n : m < 30 := by
    have hx : (m : Int) < 30 := by simpa [maxImageTries] using hm30
    exact_mod_cast hx
  have hchain := genLoop_iterState env req (presetOf req) m genFuel
    (by simp [genFuel]; omega) hresp hcont
  have hfail2 : env.http (iterState env req (presetOf req) m).calls.length
      (req.count - (iterState env req (presetOf req) m).validImageCount)
      = none := by
    rw [iterState_calls env req (presetOf req) m]
    exact hfail
  have hbodyF := loopBody_eq_none env req (presetOf req)
    (iterState env req (presetOf req) m) hfail2
  have hA : iterState env req (presetOf req) (m + 1)
      = { iterState env req (presetOf req) m with
          tries := (iterState env req (presetOf req) m).tries + req.count,
          calls := (iterState env req (presetOf req) m).calls
            ++ [req.count - (iterState env req (presetOf req) m).validImageCount],
          events := (iterState env req (presetOf req) m).events
            ++ [(req.userId, WSEvent.imageError imageErrorMessage)] } := by
    rw [iterState_succ, hbodyF]
    rfl
  obtain ⟨f2, hf2⟩ : ∃ f2, genFuel - m = f2 + 1 :=
    ⟨genFuel - m - 1, by simp [genFuel]; omega⟩
  have hstepF := genLoop_succ_aborted env req (presetOf req) f2
    (iterState env req (presetOf req) m) _ hbodyF
  have hLo : genLoop env req (presetOf req) genFuel st0
      = LoopOut.aborted (iterState env req (presetOf req) (m + 1)) := by
    rw [hchain, hf2, hstepF, hA]
  have he : generateImage env req
      = GenOutcome.result none (iterState env req (presetOf req) (m + 1)) := by
    rw [generateImage_eq env req key hk hke, hLo]
  obtain ⟨_, _, hrec, hurl, hsto, _⟩ :=
    iterState_inv env req (presetOf req) (by omega) m
  have hcreated := iterState_events_created env req (presetOf req) m hresp
  refine ⟨he, ?_, ?_, ?_, ?_, ?_, ?_⟩
  · rw [hA]
    simp
    omega
  · rw [hA]
    simp
    omega
  · rw [hA]
    simp
    omega
  · rw [hA]
    have hx : ((iterState env req (presetOf req) m).events
        ++ [(req.userId, WSEvent.imageError imageErrorMessage)]).filter
          isDoneEntry = [] := by
      rw [List.filter_append]
      have h1 : (iterState env req (presetOf req) m).events.filter isDoneEntry
          = [] := by
        rw [List.filter_eq_nil_iff]
        intro e he2
        obtain ⟨_, img, himg⟩ := hcreated e he2
        simp [isDoneEntry, himg]
      rw [h1]
      simp [isDoneEntry]
    exact hx
  · rw [hA]
    have hx : ((iterState env req (presetOf req) m).events
        ++ [(req.userId, WSEvent.imageError imageErrorMessage)]).filter
          isFilteredEntry = [] := by
      rw [List.filter_append]
      have h1 : (iterState env req (presetOf req) m).events.filter isFilteredEntry
          = [] := by
        rw [List.filter_eq_nil_iff]
        intro e he2
        obtain ⟨_, img, himg⟩ := hcreated e he2
        simp [isFilteredEntry, himg]
      rw [h1]
      simp [isFilteredEntry]
    exact hx
  · refine ⟨(iterState env req (presetOf req) m).events, ?_, hcreated⟩
    rw [hA]

/-- C10 witness: a client delivering one accepted artifact on each of
two iterations of a five-image request and throwing on the third
generation call: both already-accepted artifacts stay recorded while
undefined is returned. -/
theorem claim_c10_witness :
    generateImage envLateFail (sampleRequest 5)
        = GenOutcome.result none
            (iterState envLateFail (sampleRequest 5)
              (presetOf (sampleRequest 5)) 3)
    ∧ (iterState envLateFail (sampleRequest 5)
        (presetOf (sampleRequest 5)) 3).recorded.length = 2
    ∧ (iterState envLateFail (sampleRequest 5)
        (presetOf (sampleRequest 5)) 3).stored.length = 2
    ∧ (iterState envLateFail (sampleRequest 5)
        (presetOf (sampleRequest 5)) 3).urls.length = 2
    ∧ (iterState envLateFail (sampleRequest 5)
        (presetOf (sampleRequest 5)) 3).events.filter isDoneEntry = []
    ∧ (iterState envLateFail (sampleRequest 5)
        (presetOf (sampleRequest 5)) 3).events.filter isFilteredEntry = []
    ∧ ∃ evs, (iterState envLateFail (sampleRequest 5)
          (presetOf (sampleRequest 5)) 3).events
          = evs ++ [((sampleRequest 5).userId,
              WSEvent.imageError imageErrorMessage)]
        ∧ ∀ e ∈ evs, CreatedFor (sampleRequest 5).userId e :=
  claim_c10_late_failure envLateFail (sampleRequest 5) "key" rfl (by decide)
    2 2 (by decide) (by decide) (by decide) (by decide) (by decide) (by decide)

end Mythweaver
